import Mathlib

/-!
Verification development for the js-module-loader repository.

This file gives a shallow embedding of the synchronous CommonJS loader
(the `_loadNodeJSModule` / `mockedRequire` pair of the full revision of
the loader, together with its `getRealSubPath` conditional-exports
resolver and the assignment-mirroring pass of the ESM interop
transform), and proves properties of the embedded definitions.

Modelling conventions:
- paths are absolute POSIX paths; `path.sep` is `/`, so the source's
  `s.replace('/', path.sep)` is the identity and is modelled as such;
- the filesystem is a function from paths to optional nodes (file with
  known parsed content, or directory);
- JavaScript objects live in an explicit heap (a list of JSON-like
  values indexed by address), so object identity is observable;
- exceptions are the error side of `Except`; since JavaScript
  exceptions unwind but leave prior mutations in place, every loader
  operation returns the mutated state alongside the `Except` result;
- recursion is bounded by explicit fuel (every recursive call consumes
  one unit), keeping all definitions executable.
-/

namespace JsModuleLoader

/-- A JSON-like JavaScript value (the shape of parsed `package.json`
data and of values stored in module exports objects). -/
inductive JValue : Type where
  | null : JValue
  | bool : Bool → JValue
  | num : Int → JValue
  | str : String → JValue
  | arr : List JValue → JValue
  | obj : List (String × JValue) → JValue

/-- JavaScript truthiness of a value. -/
def truthy : JValue → Bool
  | .null => false
  | .bool b => b
  | .num n => !(n == 0)
  | .str s => !(s == "")
  | .arr _ => true
  | .obj _ => true

/-- Truthiness where `none` stands for the JavaScript `undefined`. -/
def truthyOpt : Option JValue → Bool
  | none => false
  | some v => truthy v

/-- Whether an optional value is a string (the `typeof v` test of the
source, with `none` standing for `undefined`). -/
def isStrOpt : Option JValue → Bool
  | some (.str _) => true
  | _ => false

/-- Lookup in an association list (JavaScript object property read). -/
def assocGet {α : Type} : List (String × α) → String → Option α
  | [], _ => none
  | (k, v) :: t, key => if k == key then some v else assocGet t key

/-- Update or insert in an association list (property write). -/
def assocSet {α : Type} : List (String × α) → String → α → List (String × α)
  | [], key, v => [(key, v)]
  | (k, w) :: t, key, v => if k == key then (key, v) :: t else (k, w) :: assocSet t key v

/-- Remove a key from an association list (the `delete` operator). -/
def assocDel {α : Type} : List (String × α) → String → List (String × α)
  | [], _ => []
  | (k, w) :: t, key => if k == key then t else (k, w) :: assocDel t key

/-- Property read on a value that is known not to be `null`:
objects look the key up, everything else yields `undefined`. -/
def objLikeGet : JValue → String → Option JValue
  | .obj f, k => assocGet f k
  | _, _ => none

/-! ### Path arithmetic

The loader only ever manipulates absolute POSIX paths, so `path.join`
and `path.resolve` are modelled as segment normalization (dropping `.`
segments and resolving `..` against the stack, with `..` at the root
staying at the root, as Node does for absolute paths). -/

/-- Split a character list on a separator. -/
def charSplit (sep : Char) : List Char → List (List Char)
  | [] => [[]]
  | x :: xs =>
    match charSplit sep xs with
    | [] => [[]]
    | seg :: rest => if x == sep then [] :: seg :: rest else (x :: seg) :: rest

/-- Split a string on `/` (the behaviour of the string split used by
the source on its separator). -/
def strSplitOnSlash (s : String) : List String :=
  (charSplit '/' s.data).map String.mk

/-- Split a path into its non-trivial segments. -/
def splitSegs (s : String) : List String :=
  (strSplitOnSlash s).filter (fun t => (t != "") && (t != "."))

/-- Resolve `..` segments against a stack of already-seen segments
(the accumulator is in reverse order). -/
def normStack : List String → List String → List String
  | acc, [] => acc.reverse
  | acc, seg :: rest =>
    if seg == ".." then normStack (acc.drop 1) rest
    else normStack (seg :: acc) rest

/-- Normalize an absolute path (returning the input object itself when
it is already in normal form, just as the Node path functions return
their canonical spelling). -/
def pathNorm (s : String) : String :=
  let rebuilt := "/" ++ String.intercalate "/" (normStack [] (splitSegs s))
  if rebuilt == s then s else rebuilt

/-- The source's `path.join(a, b)` on absolute paths. -/
def pathJoin (a b : String) : String :=
  pathNorm (a ++ "/" ++ b)

/-- The source's `path.resolve(p)` on absolute paths. -/
def pathResolve (s : String) : String :=
  pathNorm s

/-- The source's `path.dirname(p)` on absolute paths. -/
def pathDirname (s : String) : String :=
  "/" ++ String.intercalate "/" ((normStack [] (splitSegs s)).dropLast)

/-- `String.endsWith`, computed on the character list (the core
version does not reduce definitionally). -/
def strEndsWith (s post : String) : Bool :=
  List.isSuffixOf post.data s.data

/-- `String.startsWith`, computed on the character list. -/
def strStartsWith (s pre : String) : Bool :=
  List.isPrefixOf pre.data s.data

/-- Whether a path ends in one of the three JavaScript source
extensions probed by the loader. -/
def hasJsExt (s : String) : Bool :=
  strEndsWith s ".js" || strEndsWith s ".cjs" || strEndsWith s ".mjs"

/-! ### Module bodies, sources, and the filesystem -/

/-- A statement of a compiled module body.  The execution units built
by the loader are modelled as lists of these statements: a body can
write a property of its own `exports` object, call the injected
`require` (discarding or not the thrown error), or throw. -/
inductive Stmt : Type where
  | assignExport : String → JValue → Stmt
  | requireStmt : String → Stmt
  | tryRequire : String → Stmt
  | throwErr : Stmt

/-- The content of a file as far as the loader is concerned: a
JavaScript source whose compiled execution unit is a statement list,
or a JSON document with its parsed value. -/
inductive ModuleSource : Type where
  | js : List Stmt → ModuleSource
  | json : JValue → ModuleSource

/-- A filesystem node. -/
inductive FSNode : Type where
  | file : ModuleSource → FSNode
  | dir : FSNode

/-- The host environment: the filesystem and the list of internal
(built-in) module names (`Module.builtinModules` in the source). -/
structure Env : Type where
  fs : String → Option FSNode
  internals : List String

/-- The source's `fs.existsSync`. -/
def existsF (fs : String → Option FSNode) (p : String) : Bool :=
  (fs p).isSome

/-- The source's `fs.statSync(p).isFile()` under an exists guard. -/
def isFileF (fs : String → Option FSNode) (p : String) : Bool :=
  match fs p with
  | some (.file _) => true
  | _ => false

/-- The source's `fs.statSync(p).isDirectory()` under an exists guard. -/
def isDirF (fs : String → Option FSNode) (p : String) : Bool :=
  match fs p with
  | some .dir => true
  | _ => false

/-- `isNodeJSModule`: a path is a Node.js module when
`<resolve(p)>/package.json` exists. -/
def isNodeJSModule (env : Env) (p : String) : Bool :=
  existsF env.fs (pathJoin (pathResolve p) "package.json")

/-! ### Errors, runtime values, loader state -/

/-- The errors the embedded loader can raise.  Each constructor
corresponds to one family of `throw` sites of the source (or to a
JavaScript runtime exception such as a TypeError); `outOfFuel` is the
modelling artifact for exhausted recursion budget. -/
inductive LoadErr : Type where
  | outOfFuel : LoadErr
  | moduleNotFoundJson : LoadErr
  | jsonLoadError : LoadErr
  | jsonParseError : LoadErr
  | loadError : LoadErr
  | fsError : LoadErr
  | typeError : LoadErr
  | cannotImportSubpath : LoadErr
  | cannotFindModule : LoadErr
  | bareNotFound : LoadErr
  | execThrow : LoadErr
deriving DecidableEq

/-- A runtime value produced by a load or require: a reference to a
heap object (an exports object or a parsed JSON document), a
primitive, the loader's own mocked `Module` class, or a host built-in
module returned unchanged. -/
inductive Val : Type where
  | ref : Nat → Val
  | prim : JValue → Val
  | mockedModuleClass : Val
  | hostModule : String → Val

/-- JavaScript truthiness of a runtime value (references and host
modules are objects, hence truthy). -/
def valTruthy : Val → Bool
  | .ref _ => true
  | .prim j => truthy j
  | .mockedModuleClass => true
  | .hostModule _ => true

/-- The per-session mutable state of the loader: the heap of live
objects, the `moduleCache`, the `loadingModules` map (path to the
address of the in-flight record's exports object), and the
`sourceFiles` set. -/
structure LoaderState : Type where
  heap : List JValue
  moduleCache : List (String × Val)
  loadingModules : List (String × Nat)
  sourceFiles : List String

/-- Write a property of an object value (no-op on non-objects;
unreachable in the loader, whose heap holds only objects). -/
def objSet : JValue → String → JValue → JValue
  | .obj f, k, v => .obj (assocSet f k v)
  | j, _, _ => j

/-- Mutate the property `k` of the heap object at address `a`. -/
def heapAssign (st : LoaderState) (a : Nat) (k : String) (v : JValue) : LoaderState :=
  { st with heap := st.heap.set a (objSet (st.heap.getD a .null) k v) }

/-- `new MockedModule()`: allocate a fresh, empty exports object and
return its address. -/
def newMockedModule (st : LoaderState) : Nat × LoaderState :=
  (st.heap.length, { st with heap := st.heap ++ [JValue.obj []] })

/-- `JSON.parse` of a file's content: objects and arrays are allocated
fresh on the heap (so each parse has its own identity), primitives are
returned directly. -/
def jsonAlloc (v : JValue) (st : LoaderState) : Val × LoaderState :=
  match v with
  | .obj _ => (.ref st.heap.length, { st with heap := st.heap ++ [v] })
  | .arr _ => (.ref st.heap.length, { st with heap := st.heap ++ [v] })
  | _ => (.prim v, st)

/-- Add a path to the `sourceFiles` set. -/
def addSource (l : List String) (p : String) : List String :=
  if l.contains p then l else l ++ [p]

/-- The closure produced by binding the mocked require to a directory
and a resolve-only flag. -/
structure RequireClosure : Type where
  dir : String
  resolveOnly : Bool
deriving DecidableEq

/-- `MockedModule.createRequire(filename)`: the mocked require bound
to the file's directory, in loading (not resolve-only) mode. -/
def MockedModule.createRequire (filename : String) : RequireClosure :=
  { dir := pathDirname filename, resolveOnly := false }

/-! ### The conditional-exports resolver `getRealSubPath`

Transcribed from the full loader revision.  The function receives the
`exports` spec value for a subpath (`none` standing for `undefined`),
and the package directory; it returns `none` for the JavaScript
`null`, or the chosen value (normally a string). -/

/-- The candidate selected by one object element of a fallback array:
a truthy `require` wins if it is a string or an object with a string
`default`; else a truthy string `default`; else a truthy `import`
(string, or object with string `default`).  When no branch applies the
element leaves the loop variable unchanged. -/
def arrObjCand (flds : List (String × JValue)) : Option String :=
  let req := assocGet flds "require"
  let dflt := assocGet flds "default"
  let imp := assocGet flds "import"
  if truthyOpt req then
    match req with
    | some (.str s) => some s
    | some (.obj rf) =>
      match assocGet rf "default" with
      | some (.str s) => some s
      | _ => none
    | _ => none
  else if truthyOpt dflt then
    match dflt with
    | some (.str s) => some s
    | _ => none
  else if truthyOpt imp then
    match imp with
    | some (.str s) => some s
    | some (.obj imf) =>
      match assocGet imf "default" with
      | some (.str s) => some s
      | _ => none
    | _ => none
  else none

/-- The fallback-array loop of `getRealSubPath`.  A `null` element has
JavaScript type `object`, so reading `.require` off it throws; object
and (nested) array elements update the loop variable per `arrObjCand`
and then test `existsSync(path.join(modulePath, r.replace(...)))` —
which throws a TypeError when the loop variable is still `null` —
breaking on success; string elements set the loop variable and test
likewise; numbers and booleans are skipped without a test.  When the
loop finishes without a break, the last candidate is returned. -/
def grspArrLoop (fs : String → Option FSNode) (mp : String) :
    List JValue → Option JValue → Except LoadErr (Option JValue)
  | [], r => .ok r
  | e :: rest, r =>
    match e with
    | .null => .error .typeError
    | .obj flds =>
      let r2 := match arrObjCand flds with
        | some s => some (JValue.str s)
        | none => r
      match r2 with
      | some (.str s) =>
        if existsF fs (pathJoin mp s) then .ok (some (.str s))
        else grspArrLoop fs mp rest (some (.str s))
      | some _ => .error .typeError
      | none => .error .typeError
    | .arr _ =>
      match r with
      | some (.str s) =>
        if existsF fs (pathJoin mp s) then .ok (some (.str s))
        else grspArrLoop fs mp rest r
      | some _ => .error .typeError
      | none => .error .typeError
    | .str s =>
      if existsF fs (pathJoin mp s) then .ok (some (.str s))
      else grspArrLoop fs mp rest (some (.str s))
    | .num _ => grspArrLoop fs mp rest r
    | .bool _ => grspArrLoop fs mp rest r

/-- The else-if chain hanging off the object-valued `require` check of
the non-array object branch: a string `default` wins, else a string
`import`, else the value chosen by the detached string-`require`
check. -/
def grspElseChain (dflt imp r1 : Option JValue) : Option JValue :=
  match dflt with
  | some (.str s) => some (.str s)
  | _ =>
    match imp with
    | some (.str s) => some (.str s)
    | _ => r1

/-- The non-array object branch of `getRealSubPath`.  The source has
four clauses: a detached `if` for a string `require`; an `if`/`else
if` chain starting at the object-valued `require` check (so a string
`default` can override a string `require`); and a final detached `if`
that lets an object-valued `import` with a truthy `default` override
everything.  `null` sub-values have JavaScript type `object` and make
the `.default` read throw. -/
def grspObjBranch (flds : List (String × JValue)) : Except LoadErr (Option JValue) :=
  let req := assocGet flds "require"
  let dflt := assocGet flds "default"
  let imp := assocGet flds "import"
  let r1 : Option JValue := match req with
    | some (.str s) => some (.str s)
    | _ => none
  let chain : Except LoadErr (Option JValue) :=
    match req with
    | some .null => .error .typeError
    | some (.obj rf) =>
      if truthyOpt (assocGet rf "default") then .ok (assocGet rf "default")
      else .ok (grspElseChain dflt imp r1)
    | _ => .ok (grspElseChain dflt imp r1)
  match chain with
  | .error e => .error e
  | .ok r2 =>
    match imp with
    | some .null => .error .typeError
    | some (.obj imf) =>
      if truthyOpt (assocGet imf "default") then .ok (assocGet imf "default")
      else .ok r2
    | _ => .ok r2

/-- `getRealSubPath(subPathSpec, modulePath)` of the full loader
revision.  Dispatches on `Array.isArray`, then `typeof === 'string'`,
then `typeof === 'object'` (which includes `null`, whose property
reads throw); any other value falls through and the initial `null` is
returned. -/
def getRealSubPath (fs : String → Option FSNode) (subPathSpec : Option JValue)
    (modulePath : String) : Except LoadErr (Option JValue) :=
  match subPathSpec with
  | some (.arr l) => grspArrLoop fs modulePath l none
  | some (.str s) => .ok (some (.str s))
  | some .null => .error .typeError
  | some (.obj flds) => grspObjBranch flds
  | _ => .ok none

/-- The `getRealSubPath` of the earlier single-file loader revision:
same fallback-array loop, but the non-array object branch is one
strict else-if chain over string-typed `require`, `default`, `import`
(with no nested-object handling). -/
def IndexJs.getRealSubPath (fs : String → Option FSNode) (subPathSpec : Option JValue)
    (modulePath : String) : Except LoadErr (Option JValue) :=
  match subPathSpec with
  | some (.arr l) => grspArrLoop fs modulePath l none
  | some (.str s) => .ok (some (.str s))
  | some .null => .error .typeError
  | some (.obj flds) =>
    let req := assocGet flds "require"
    let dflt := assocGet flds "default"
    let imp := assocGet flds "import"
    .ok (match req with
      | some (.str s) => some (.str s)
      | _ =>
        match dflt with
        | some (.str s) => some (.str s)
        | _ =>
          match imp with
          | some (.str s) => some (.str s)
          | _ => none)
  | _ => .ok none

/-! ### The loader proper

`_loadNodeJSModule`, the compiled-body runner, and `mockedRequire` are
mutually recursive in the source.  They are embedded as one
fuel-indexed step function over a sum of call shapes, so that the
recursion is structural on the fuel and every definition computes. -/

/-- The result of a loader operation: the `Except` outcome together
with the (possibly mutated) session state. -/
abbrev Res : Type := Except LoadErr Val × LoaderState

/-- Property read used on parsed `package.json` data: reading off
`null` throws, objects look the key up, all other values yield
`undefined`. -/
def jMember : JValue → String → Except LoadErr (Option JValue)
  | .null, _ => .error .typeError
  | .obj f, k => .ok (assocGet f k)
  | _, _ => .ok none

/-- The `!subPath || subPath === '.'` test selecting package-entry
resolution. -/
def isEntrySub : Option String → Bool
  | none => true
  | some s => (s == "") || (s == ".")

/-- Normalize a requested subpath into an `exports`-map key (the
source prepends `./` when absent). -/
def normalizeSubKey (s : String) : String :=
  if strStartsWith s "./" then s else "./" ++ s

/-- The six probe candidates for a relative specifier without a
direct `.js`/`.cjs` extension, in source order. -/
def relProbeCandidates (d name : String) : List String :=
  [pathJoin d (name ++ ".js"),
   pathJoin d (name ++ ".cjs"),
   pathJoin d (name ++ ".mjs"),
   pathJoin (pathJoin d name) "index.js",
   pathJoin (pathJoin d name) "index.cjs",
   pathJoin (pathJoin d name) "index.mjs"]

/-- The `node_modules` ascent loop of the bare-specifier branch:
climb parent directories until `<d>/node_modules/<pkg>` exists or the
root is reached. -/
def ascend (env : Env) : Nat → String → String → String
  | 0, d, _ => d
  | n + 1, d, pkg =>
    if existsF env.fs (pathJoin (pathJoin d "node_modules") pkg) then d
    else if d == pathJoin d ".." then d
    else ascend env n (pathResolve (pathJoin d "..")) pkg

/-- The segment walk of the bare-specifier branch.  For each segment:
an existing subdirectory extends the walk (breaking early when the new
directory holds a `package.json`); an existing `<segment>.js` or
`<segment>.cjs` file ends the walk, but only when the index equals the
length of the specifier *string* minus one (the source compares
against `moduleName.length`, not the part count) — otherwise the
module is reported not found; an unmatched segment leaves the
directory unchanged.  Returns the final path and the exit index. -/
def walkLoop (env : Env) (nameLen : Nat) :
    List String → Nat → String → Except LoadErr (String × Nat)
  | [], idx, md => .ok (md, idx)
  | part :: rest, idx, md =>
    if existsF env.fs (pathJoin md part) && isDirF env.fs (pathJoin md part) then
      let md2 := pathJoin md part
      if isNodeJSModule env md2 then .ok (md2, idx + 1)
      else walkLoop env nameLen rest (idx + 1) md2
    else if existsF env.fs (pathJoin md (part ++ ".js")) &&
        isFileF env.fs (pathJoin md (part ++ ".js")) then
      if idx == nameLen - 1 then .ok (pathJoin md (part ++ ".js"), idx)
      else .error .bareNotFound
    else if existsF env.fs (pathJoin md (part ++ ".cjs")) &&
        isFileF env.fs (pathJoin md (part ++ ".cjs")) then
      if idx == nameLen - 1 then .ok (pathJoin md (part ++ ".cjs"), idx)
      else .error .bareNotFound
    else
      if isNodeJSModule env md then .ok (md, idx + 1)
      else walkLoop env nameLen rest (idx + 1) md

/-- Compile and run a JavaScript file that is neither in-flight nor
cached: allocate a fresh record, insert it into `loadingModules`, run
the body, and on success record the source file, cache the exports,
and remove the loading entry.  On failure the error is wrapped and
re-thrown — and, exactly as in the source, the `loadingModules` entry
is NOT removed. -/
def jsCompileRun (env : Env)
    (run : List Stmt → Nat → String → LoaderState → Res)
    (p rp : String) (st : LoaderState) : Res :=
  match env.fs p with
  | some (.file (.js body)) =>
    let a := (newMockedModule st).1
    let st1 := { (newMockedModule st).2 with
                 loadingModules := assocSet (newMockedModule st).2.loadingModules rp a }
    match run body a rp st1 with
    | (.ok _, st2) =>
      (.ok (.ref a),
       { st2 with
         sourceFiles := addSource st2.sourceFiles rp,
         moduleCache := assocSet st2.moduleCache rp (.ref a),
         loadingModules := assocDel st2.loadingModules rp })
    | (.error _, st2) => (.error .loadError, st2)
  | _ => (.error .loadError, st)

/-- The directory branch of `_loadNodeJSModule` (manifest read, entry
resolution through `exports`/`main`, and subpath resolution), with the
recursive call passed in.  Note that the entry-file recursions of the
source pass neither `subPath` nor `resolveOnly` down, so `recurse`
is always invoked with `none` and `false` there. -/
def dirBranch (env : Env)
    (recurse : String → Option String → Bool → LoaderState → Res)
    (p : String) (subPath : Option String) (ro : Bool) (st : LoaderState) : Res :=
  match env.fs (pathResolve (pathJoin p "package.json")) with
  | some (.file (.json pjv)) =>
    (match jMember pjv "exports" with
     | .error e => (.error e, st)
     | .ok exF =>
       if isEntrySub subPath then
         if !(truthyOpt exF) || isStrOpt exF then
           (match jMember pjv "main" with
            | .error e => (.error e, st)
            | .ok mainF =>
              let entryV : JValue :=
                if truthyOpt exF then exF.getD .null
                else if truthyOpt mainF then mainF.getD .null
                else .str "index.js"
              match entryV with
              | .str ef =>
                let ef2 :=
                  if !(hasJsExt ef) then
                    if existsF env.fs (pathJoin p (ef ++ ".js")) then ef ++ ".js"
                    else if existsF env.fs (pathJoin p (ef ++ ".cjs")) then ef ++ ".cjs"
                    else if existsF env.fs (pathJoin p (ef ++ ".mjs")) then ef ++ ".mjs"
                    else ef
                  else ef
                recurse (pathResolve (pathJoin p ef2)) none false st
              | _ => (.error .typeError, st))
         else
           (match getRealSubPath env.fs exF p with
            | .error e => (.error e, st)
            | .ok r1 =>
              (match (if truthyOpt r1 then Except.ok (r1.getD JValue.null)
                      else
                        match getRealSubPath env.fs (objLikeGet (exF.getD JValue.null) ".") p with
                        | .error e => Except.error e
                        | .ok r2 =>
                          if truthyOpt r2 then Except.ok (r2.getD JValue.null)
                          else Except.error LoadErr.cannotImportSubpath) with
               | .error e => (.error e, st)
               | .ok entryV =>
                 match entryV with
                 | .str ef =>
                   if ro then (.ok (.prim (.str (pathResolve (pathJoin p ef)))), st)
                   else recurse (pathResolve (pathJoin p ef)) none false st
                 | _ => (.error .typeError, st)))
       else
         (let s := subPath.getD ""
          if !(truthyOpt exF) then
            let mfp := pathResolve (pathJoin p s)
            let mfp2 :=
              if !(strEndsWith mfp ".js" || strEndsWith mfp ".cjs") then
                if existsF env.fs (pathJoin mfp "index.js") &&
                    isFileF env.fs (pathJoin mfp "index.js") then pathJoin mfp "index.js"
                else if existsF env.fs (mfp ++ ".js") then mfp ++ ".js"
                else if existsF env.fs (mfp ++ ".cjs") then mfp ++ ".cjs"
                else if existsF env.fs (mfp ++ ".mjs") then mfp ++ ".mjs"
                else mfp
              else mfp
            if ro then (.ok (.prim (.str mfp2)), st)
            else recurse mfp2 none false st
          else
            match getRealSubPath env.fs (objLikeGet (exF.getD JValue.null) (normalizeSubKey s)) p with
            | .error e => (.error e, st)
            | .ok r =>
              if truthyOpt r then
                (match r.getD JValue.null with
                 | .str rs =>
                   if ro then (.ok (.prim (.str (pathResolve (pathJoin p rs)))), st)
                   else recurse (pathResolve (pathJoin p rs)) none false st
                 | _ => (.error .typeError, st))
              else (.error .cannotImportSubpath, st)))
  | some (.file (.js _)) => (.error .jsonParseError, st)
  | some .dir => (.error .fsError, st)
  | none => (.error .fsError, st)

/-- One call shape of the mutually recursive loader core: a module
load, the execution of a compiled body, or a mocked require. -/
inductive Call : Type where
  | load : String → Option String → Bool → Call
  | runStmts : List Stmt → Nat → String → Call
  | req : String → Bool → String → Call

/-- One unfolding of the loader core, with the recursive occurrence
passed in as `selfFn` (and the ascent fuel as `asc`).  `load p sub ro`
is `_loadNodeJSModule(p, loadingModules, sub, ro)`; `runStmts body a
self` executes a compiled body against the exports object at address
`a`; `req cur ro name` is `mockedRequire(cur, loadingModules, ro,
name)`. -/
def stepAux (env : Env) (asc : Nat) (selfFn : Call → LoaderState → Res)
    (c : Call) (st : LoaderState) : Res :=
    match c with
    | .load p sub ro =>
      if strEndsWith p ".json" then
        if !(existsF env.fs p) then (.error .moduleNotFoundJson, st)
        else if ro then (.ok (.prim (.str p)), st)
        else
          match env.fs p with
          | some (.file (.json v)) => (.ok (jsonAlloc v st).1, (jsonAlloc v st).2)
          | _ => (.error .jsonLoadError, st)
      else if hasJsExt p && existsF env.fs p && isFileF env.fs p then
        if ro then (.ok (.prim (.str p)), st)
        else
          match assocGet st.loadingModules (pathResolve p) with
          | some a => (.ok (.ref a), st)
          | none =>
            match assocGet st.moduleCache (pathResolve p) with
            | some v =>
              if valTruthy v then (.ok v, st)
              else jsCompileRun env
                (fun body a sp st2 => selfFn (.runStmts body a sp) st2)
                p (pathResolve p) st
            | none =>
              jsCompileRun env
                (fun body a sp st2 => selfFn (.runStmts body a sp) st2)
                p (pathResolve p) st
      else if existsF env.fs p && isDirF env.fs p then
        dirBranch env
          (fun p2 sub2 ro2 st2 => selfFn (.load p2 sub2 ro2) st2)
          p sub ro st
      else (.error .cannotFindModule, st)
    | .runStmts body a selfPath =>
      (match body with
       | [] => (.ok (.prim .null), st)
       | stmt :: rest =>
         match stmt with
         | .assignExport k v => selfFn (.runStmts rest a selfPath) (heapAssign st a k v)
         | .throwErr => (.error .execThrow, st)
         | .requireStmt spec =>
           (match selfFn (.req selfPath false spec) st with
            | (.ok _, st2) => selfFn (.runStmts rest a selfPath) st2
            | (.error e, st2) => (.error e, st2))
         | .tryRequire spec =>
           (match selfFn (.req selfPath false spec) st with
            | (_, st2) => selfFn (.runStmts rest a selfPath) st2))
    | .req cur ro name =>
      if (name == "node:module") || (name == "module") then
        (if ro then (.ok (.prim (.str name)), st) else (.ok .mockedModuleClass, st))
      else if env.internals.contains name then
        (if ro then (.ok (.prim (.str name)), st) else (.ok (.hostModule name), st))
      else if strStartsWith name "node:" then
        (if ro then (.ok (.prim (.str name)), st) else (.ok (.hostModule name), st))
      else if strStartsWith name "./" || strStartsWith name "../" then
        if strEndsWith name ".js" || strEndsWith name ".cjs" then
          selfFn (.load (pathJoin (pathDirname cur) name) none ro) st
        else
          match (relProbeCandidates (pathDirname cur) name).find?
              (fun q => existsF env.fs q) with
          | some q => selfFn (.load q none ro) st
          | none => (.error .cannotFindModule, st)
      else
        let parts := strSplitOnSlash name
        let d := ascend env asc (pathResolve (pathDirname cur)) (parts.headD "")
        match walkLoop env name.length parts 0 (pathJoin d "node_modules") with
        | .error e => (.error e, st)
        | .ok (md, idx) =>
          let rest :=
            if idx < parts.length then some (String.intercalate "/" (parts.drop idx))
            else none
          if hasJsExt md then
            match env.fs md with
            | some (.file _) => selfFn (.load md none ro) st
            | some .dir => selfFn (.load md rest ro) st
            | none => (.error .fsError, st)
          else selfFn (.load md rest ro) st

/-- The fuel-indexed loader core: each unfolding of `stepAux` uses
one unit of fuel for every inner call, and the `node_modules` ascent
of a bare require is bounded by the same budget. -/
def step (env : Env) : Nat → Call → LoaderState → Res
  | 0 => fun _ st => (.error .outOfFuel, st)
  | n + 1 => stepAux env n (step env n)

/-- `_loadNodeJSModule(modulePath, loadingModules, subPath,
resolveOnly)` with explicit state and fuel. -/
def loadModule (env : Env) (fuel : Nat) (p : String) (sub : Option String)
    (ro : Bool) (st : LoaderState) : Res :=
  step env fuel (.load p sub ro) st

/-- `mockedRequire(currentModulePath, loadingModules, resolveOnly,
moduleName)` with explicit state and fuel. -/
def mockedRequire (env : Env) (fuel : Nat) (cur : String) (ro : Bool)
    (name : String) (st : LoaderState) : Res :=
  step env fuel (.req cur ro name) st

/-- Execution of a compiled module body with explicit state and
fuel. -/
def runBody (env : Env) (fuel : Nat) (body : List Stmt) (a : Nat)
    (self : String) (st : LoaderState) : Res :=
  step env fuel (.runStmts body a self) st

/-! ### The assignment-mirroring pass of the ESM interop transform

The transform collects the exported names of a module into a map from
local name to exported name, then walks every assignment expression of
the program: when the assignment target is an identifier whose lexical
binding is the *same* binding as the one in the program scope (i.e. no
enclosing function shadows it), the binding exists, and the name is
exported, the assignment `x = e` is replaced by
`__exports[0].<exported> = (x = e)`.  The embedding models the
scope-sensitive part: expressions with assignments and function
expressions (whose parameters and hoisted declarations shadow outer
bindings), and statements that are expression statements or variable
declarations. -/

mutual
/-- A miniature expression language for the transform: literals,
variables, identifier-target assignments, the mirrored form produced
by the rewrite, and function expressions introducing a scope. -/
inductive JExpr : Type where
  | lit : Int → JExpr
  | evar : String → JExpr
  | assign : String → JExpr → JExpr
  | mirrorAssign : String → String → JExpr → JExpr
  | fnExpr : List String → List JStmt → JExpr

/-- A miniature statement language for the transform. -/
inductive JStmt : Type where
  | exprStmt : JExpr → JStmt
  | varDecl : String → JExpr → JStmt
end

/-- The names declared by the statements of a function body (the
bindings the scope of that function introduces). -/
def declsOf (body : List JStmt) : List String :=
  body.filterMap (fun s =>
    match s with
    | .varDecl x _ => some x
    | _ => none)

mutual
/-- Rewrite an expression.  `pm` is the exported map (local name to
exported name), `pd` the names bound in the program scope, `sh` the
names shadowed by enclosing inner scopes at this point.  An assignment
is mirrored exactly when its target is not shadowed, is bound in the
program scope, and is exported; a function expression extends the
shadow set with its parameters and hoisted declarations. -/
def rewriteExpr (pm : List (String × String)) (pd sh : List String) :
    JExpr → JExpr
  | .lit n => .lit n
  | .evar x => .evar x
  | .assign x rhs =>
    if !(sh.contains x) && pd.contains x && (assocGet pm x).isSome then
      .mirrorAssign ((assocGet pm x).getD x) x (rewriteExpr pm pd sh rhs)
    else .assign x (rewriteExpr pm pd sh rhs)
  | .mirrorAssign ex x rhs => .mirrorAssign ex x (rewriteExpr pm pd sh rhs)
  | .fnExpr ps body => .fnExpr ps (rewriteStmts pm pd (sh ++ ps ++ declsOf body) body)

/-- Rewrite one statement. -/
def rewriteStmt (pm : List (String × String)) (pd sh : List String) :
    JStmt → JStmt
  | .exprStmt e => .exprStmt (rewriteExpr pm pd sh e)
  | .varDecl x i => .varDecl x (rewriteExpr pm pd sh i)

/-- Rewrite a statement list. -/
def rewriteStmts (pm : List (String × String)) (pd sh : List String) :
    List JStmt → List JStmt
  | [] => []
  | s :: rest => rewriteStmt pm pd sh s :: rewriteStmts pm pd sh rest
end

/-- The assignment-mirroring pass over a whole module body: the
program scope binds the hoisted declarations of the body, and no name
is shadowed at top level. -/
def transformProgram (pm : List (String × String)) (body : List JStmt) : List JStmt :=
  rewriteStmts pm (declsOf body) [] body

/-! ### Specification-side definitions for the fallback-array rule -/

/-- The candidate a fallback-array element selects: a string element
is its own candidate, an object element selects per `arrObjCand`, any
other element selects nothing. -/
def elemCand : JValue → Option String
  | .str s => some s
  | .obj flds => arrObjCand flds
  | _ => none

/-- The candidate of the first element of a fallback array whose
candidate path exists on disk. -/
def firstHit (fs : String → Option FSNode) (mp : String) : List JValue → Option String
  | [] => none
  | e :: rest =>
    match elemCand e with
    | some c => if existsF fs (pathJoin mp c) then some c else firstHit fs mp rest
    | none => none

/-! ### Concrete environments used by the claim instances -/

/-- The empty session state. -/
def stEmpty : LoaderState := ⟨[], [], [], []⟩

/-- An empty filesystem. -/
def fsNone : String → Option FSNode := fun _ => none

/-- A filesystem with one JavaScript file, used for the circular-load
instance. -/
def fsC1 : String → Option FSNode := fun p =>
  if p == "/a.js" then some (.file (.js [.assignExport "x" (.num 1)])) else none

/-- Environment for the circular-load instance. -/
def envC1 : Env := ⟨fsC1, ["fs"]⟩

/-- A mid-flight state: the record for `/a.js` is in the loading set,
its partially populated exports object at address 0. -/
def stC1 : LoaderState := ⟨[.obj [("early", .num 7)]], [], [("/a.js", 0)], []⟩

/-- A filesystem with one module whose body throws. -/
def fsC2 : String → Option FSNode := fun p =>
  if p == "/m/bad.js" then some (.file (.js [.throwErr])) else none

/-- Environment for the failing-module instance. -/
def envC2 : Env := ⟨fsC2, ["fs"]⟩

/-- The state after the failed load of `/m/bad.js`: the error left the
loading-set entry in place and nothing was cached. -/
def stC2After : LoaderState := ⟨[.obj []], [], [("/m/bad.js", 0)], []⟩

/-- A filesystem with one existing candidate file for the
fallback-array instances. -/
def fsC4 : String → Option FSNode := fun p =>
  if p == "/pkg/a.js" then some (.file (.js [])) else none

/-- A filesystem for the amended fallback-array witness: only the
second element's candidate exists. -/
def fsC4w : String → Option FSNode := fun p =>
  if p == "/pkg/y.js" then some (.file (.js [])) else none

/-- A filesystem for the relative-probe witness: the `.cjs` candidate
and a later `index.js` candidate both exist, so order is observable. -/
def fsC5 : String → Option FSNode := fun p =>
  if p == "/app/util.cjs" then some (.file (.js []))
  else if p == "/app/util/index.js" then some (.file (.js []))
  else none

/-- Environment for the relative-probe witness. -/
def envC5 : Env := ⟨fsC5, ["fs", "path", "module"]⟩

/-- A package directory with an exports map, for the subpath-export
instance. -/
def fsC6 : String → Option FSNode := fun p =>
  if p == "/pkg" then some .dir
  else if p == "/pkg/package.json" then
    some (.file (.json (.obj [("exports", .obj [("./helpers", .str "./lib/helpers.js")])])))
  else if p == "/pkg/lib/helpers.js" then some (.file (.js []))
  else none

/-- Environment for the subpath-export instance. -/
def envC6 : Env := ⟨fsC6, ["fs"]⟩

/-- The exports map of the subpath-export instance. -/
def exC6 : JValue := .obj [("./helpers", .str "./lib/helpers.js")]

/-- A filesystem with one JSON document. -/
def fsC7 : String → Option FSNode := fun p =>
  if p == "/d/c.json" then some (.file (.json (.obj [("a", .num 1)]))) else none

/-- Environment for the JSON instances. -/
def envC7 : Env := ⟨fsC7, ["fs"]⟩

/-- A package reachable as bare specifier `pkg` whose manifest has a
`main` field, used for the resolve-mode instance. -/
def fsC8 : String → Option FSNode := fun p =>
  if p == "/app/node_modules/pkg" then some .dir
  else if p == "/app/node_modules/pkg/package.json" then
    some (.file (.json (.obj [("main", .str "x.js")])))
  else if p == "/app/node_modules/pkg/x.js" then
    some (.file (.js [.assignExport "hi" (.num 1)]))
  else none

/-- Environment for the resolve-mode instance. -/
def envC8 : Env := ⟨fsC8, ["fs", "path", "module"]⟩

/-- The result of a resolve-only require of the bare specifier `pkg`
from `/app/main.js` in an empty session. -/
def resolveBareMain : Res := mockedRequire envC8 6 "/app/main.js" true "pkg" stEmpty

/-- When every element of a fallback array selects a candidate, the
loop returns the candidate of the first element whose path exists,
irrespective of the carried-in loop variable. -/
theorem grspArrLoop_firstHit (fs : String → Option FSNode) (mp : String) :
    ∀ (l : List JValue) (r : Option JValue) (c : String),
      (∀ e ∈ l, (elemCand e).isSome = true) →
      firstHit fs mp l = some c →
      grspArrLoop fs mp l r = .ok (some (.str c)) := by
  intro l
  induction l with
  | nil => intro r c _ hfirst; simp [firstHit] at hfirst
  | cons e rest ih =>
    intro r c hwf hfirst
    have hwfe : (elemCand e).isSome = true := hwf e (by simp)
    have hwfr : ∀ x ∈ rest, (elemCand x).isSome = true := fun x hx => hwf x (by simp [hx])
    cases e with
    | str s =>
      simp [firstHit, elemCand] at hfirst
      by_cases hex : existsF fs (pathJoin mp s) = true
      · simp [hex] at hfirst
        subst hfirst
        simp [grspArrLoop, hex]
      · have hexf : existsF fs (pathJoin mp s) = false := by
          revert hex; cases existsF fs (pathJoin mp s) <;> simp
        simp [hexf] at hfirst
        simp [grspArrLoop, hexf, ih _ c hwfr hfirst]
    | obj flds =>
      simp [elemCand] at hwfe
      rcases hoc : arrObjCand flds with _ | c0
      · rw [hoc] at hwfe; simp at hwfe
      · simp [firstHit, elemCand, hoc] at hfirst
        by_cases hex : existsF fs (pathJoin mp c0) = true
        · simp [hex] at hfirst
          subst hfirst
          simp [grspArrLoop, hoc, hex]
        · have hexf : existsF fs (pathJoin mp c0) = false := by
            revert hex; cases existsF fs (pathJoin mp c0) <;> simp
          simp [hexf] at hfirst
          simp [grspArrLoop, hoc, hexf, ih _ c hwfr hfirst]
    | null => simp [elemCand] at hwfe
    | bool b => simp [elemCand] at hwfe
    | num m => simp [elemCand] at hwfe
    | arr xs => simp [elemCand] at hwfe

/-! ### The claims -/

/-- C1.  A load request whose resolved path is in the loading set of
the current call chain returns the in-flight record's exports object
(the very address registered in `loadingModules`) immediately, with
the session state unchanged: the body is neither re-read, re-compiled
nor re-executed, and the returned reference aliases the object the
in-progress module is still populating, so properties assigned later
become visible on it and properties not yet assigned are absent. -/
theorem circular_load_returns_inflight_exports
    (env : Env) (n : Nat) (p : String) (sub : Option String) (st : LoaderState)
    (a : Nat) (src : ModuleSource)
    (hjson : strEndsWith p ".json" = false)
    (hext : hasJsExt p = true)
    (hfs : env.fs p = some (.file src))
    (hload : assocGet st.loadingModules (pathResolve p) = some a) :
    loadModule env (n + 1) p sub false st = (.ok (.ref a), st) := by
  simp [loadModule, step, stepAux, hjson, hext, existsF, isFileF, hfs, hload]

/-- Witness for C1: with `/a.js` mid-flight at address 0 (its exports
object already holding one property), a nested load returns address 0
at once and the state is untouched. -/
theorem circular_load_returns_inflight_exports_witness :
    loadModule envC1 1 "/a.js" none false stC1 = (.ok (.ref 0), stC1) :=
  circular_load_returns_inflight_exports envC1 0 "/a.js" none stC1 0
    (.js [.assignExport "x" (.num 1)]) rfl rfl rfl rfl

/-- C2.  Evaluation at the failing input: loading `/m/bad.js` (whose
body throws) propagates a wrapped error and does not cache the module,
but the path is left in `loadingModules`; a second load of the same
path in the same session therefore returns the stale, empty in-flight
exports object without re-executing anything, instead of starting a
fresh attempt as the specification requires. -/
theorem failed_module_left_in_loading_set :
    loadModule envC2 3 "/m/bad.js" none false stEmpty = (.error .loadError, stC2After) ∧
    loadModule envC2 3 "/m/bad.js" none false stC2After = (.ok (.ref 0), stC2After) :=
  ⟨rfl, rfl⟩

/-- C3.  Evaluation at the claim's own instance: for the object spec
value with a string `require` and a string `default`, the resolver
returns `./a.js` — the `default` entry — because the else-if chain of
the object branch is anchored on the object-valued `require` check, so
a string `default` overrides the string `require` chosen first. -/
theorem conditional_exports_default_overrides_require :
    getRealSubPath fsNone
      (some (.obj [("require", .str "./a.cjs"), ("default", .str "./a.js")])) "/pkg"
      = .ok (some (.str "./a.js")) := rfl

/-- The object branch of the earlier loader revision is a strict
else-if chain, so the same spec value resolves to `./a.cjs` there —
the behaviour the specification describes. -/
theorem conditional_exports_require_first_in_earlier_revision :
    IndexJs.getRealSubPath fsNone
      (some (.obj [("require", .str "./a.cjs"), ("default", .str "./a.js")])) "/pkg"
      = .ok (some (.str "./a.cjs")) := rfl

/-- Counterexample to C4 as stated: the array `[{}, "./a.js"]` has an
element (`"./a.js"`) whose resolved path exists on disk, yet
resolution does not succeed with that candidate — the empty object
element selects nothing, and the existence test dereferences the still
`null` loop variable, raising a TypeError. -/
theorem fallback_array_claim_counterexample :
    existsF fsC4 (pathJoin "/pkg" "./a.js") = true ∧
    getRealSubPath fsC4 (some (.arr [.obj [], .str "./a.js"])) "/pkg"
      = .error .typeError :=
  ⟨rfl, rfl⟩

/-- C4 (amended).  For a fallback array each of whose elements selects
a candidate (a string element, or an object element with a string
`require`, object `require` with string `default`, string `default`,
string `import`, or object `import` with string `default`), resolution
evaluates the elements in order and succeeds with the candidate of the
first element whose candidate path exists on disk. -/
theorem fallback_array_first_existing_candidate
    (fs : String → Option FSNode) (mp : String) (l : List JValue) (c : String)
    (hwf : ∀ e ∈ l, (elemCand e).isSome = true)
    (hfirst : firstHit fs mp l = some c) :
    getRealSubPath fs (some (.arr l)) mp = .ok (some (.str c)) := by
  simpa [getRealSubPath] using grspArrLoop_firstHit fs mp l none c hwf hfirst

/-- Witness for C4: in `[{require: "./x.cjs"}, "./y.js"]` with only
`/pkg/y.js` existing, resolution skips the first candidate and
succeeds with `./y.js`. -/
theorem fallback_array_first_existing_candidate_witness :
    getRealSubPath fsC4w
      (some (.arr [.obj [("require", .str "./x.cjs")], .str "./y.js"])) "/pkg"
      = .ok (some (.str "./y.js")) :=
  fallback_array_first_existing_candidate fsC4w "/pkg"
    [.obj [("require", .str "./x.cjs")], .str "./y.js"] "./y.js"
    (by decide) rfl

/-- C5.  A relative specifier (starting with `./` or `../`) that does
not end in `.js` or `.cjs` is resolved by probing, in order, the six
candidates `name + ".js"`, `name + ".cjs"`, `name + ".mjs"`,
`name/index.js`, `name/index.cjs`, `name/index.mjs` against the
requesting file's directory; the first existing candidate is handed to
the loader, and when none exists the require fails with the
module-not-found error. -/
theorem relative_probe_order
    (env : Env) (n : Nat) (cur : String) (name : String) (ro : Bool) (st : LoaderState)
    (h1 : (name == "node:module") = false) (h2 : (name == "module") = false)
    (h3 : env.internals.contains name = false)
    (h4 : strStartsWith name "node:" = false)
    (h5 : (strStartsWith name "./" || strStartsWith name "../") = true)
    (h6 : strEndsWith name ".js" = false) (h7 : strEndsWith name ".cjs" = false) :
    mockedRequire env (n + 1) cur ro name st =
      match (relProbeCandidates (pathDirname cur) name).find?
          (fun q => existsF env.fs q) with
      | some q => loadModule env n q none ro st
      | none => (.error .cannotFindModule, st) := by
  have h3m : ¬ (name ∈ env.internals) := by simpa using h3
  simp only [mockedRequire, loadModule, step, stepAux, h1, h2, h4, h5, h6, h7,
    Bool.or_self, Bool.false_eq_true, if_false, ite_false, ite_true]
  rcases hfind : List.find? (fun q => existsF env.fs q)
      (relProbeCandidates (pathDirname cur) name) with _ | q <;> simp [h3m, hfind]

/-- Witness for C5: requiring `./util` from `/app/main.js` where
`/app/util.cjs` and `/app/util/index.js` both exist loads the `.cjs`
candidate, which comes first in probe order. -/
theorem relative_probe_order_witness :
    mockedRequire envC5 3 "/app/main.js" false "./util" stEmpty
      = loadModule envC5 2
          (pathJoin (pathDirname "/app/main.js") ("./util" ++ ".cjs"))
          none false stEmpty ∧
    (pathJoin (pathDirname "/app/main.js") ("./util" ++ ".cjs") == "/app/util.cjs") = true := by
  constructor
  · rw [relative_probe_order envC5 2 "/app/main.js" "./util" false stEmpty
      rfl rfl rfl rfl rfl rfl rfl]
    exact rfl
  · rfl

/-- C6.  For a package directory whose manifest has a truthy `exports`
field and a requested non-entry subpath, the loader looks the subpath
up in the exports value under the key obtained by normalizing the
subpath to start with `./`: when the key is absent the load fails with
the subpath-not-exported error and the state is untouched — for every
filesystem satisfying the hypotheses, so no probing happens — and when
the key holds a value that the conditional-exports rule resolves to a
nonempty string `r`, resolve-only mode returns the absolute path of
`r` joined under the package directory. -/
theorem exports_map_subpath_resolution
    (env : Env) (n : Nat) (p : String) (s : String) (st : LoaderState)
    (pjf : List (String × JValue)) (exv : JValue)
    (hjson : strEndsWith p ".json" = false)
    (hdir : env.fs p = some .dir)
    (hpj : env.fs (pathResolve (pathJoin p "package.json")) = some (.file (.json (.obj pjf))))
    (hex : assocGet pjf "exports" = some exv)
    (htr : truthy exv = true)
    (hs1 : (s == "") = false) (hs2 : (s == ".") = false) :
    (objLikeGet exv (normalizeSubKey s) = none →
       loadModule env (n + 1) p (some s) true st = (.error .cannotImportSubpath, st)) ∧
    (∀ v r, objLikeGet exv (normalizeSubKey s) = some v →
       getRealSubPath env.fs (some v) p = .ok (some (.str r)) →
       (r == "") = false →
       loadModule env (n + 1) p (some s) true st
         = (.ok (.prim (.str (pathResolve (pathJoin p r)))), st)) := by
  have hnf : isFileF env.fs p = false := by simp [isFileF, hdir]
  have htro : truthyOpt (some exv) = true := by simp [truthyOpt, htr]
  constructor
  · intro habs
    simp [loadModule, step, stepAux, hjson, hnf, existsF, isDirF, hdir, dirBranch, hpj,
      jMember, hex, isEntrySub, hs1, hs2, htro, habs, getRealSubPath, truthyOpt, htr]
  · intro v r hv hr hrne
    have htrr : truthyOpt (some (JValue.str r)) = true := by
      simp [truthyOpt, truthy, hrne]
    simp [loadModule, step, stepAux, hjson, hnf, existsF, isDirF, hdir, dirBranch, hpj,
      jMember, hex, isEntrySub, hs1, hs2, htro, hv, hr, htrr, htr]

/-- Witness for C6: with exports `{"./helpers": "./lib/helpers.js"}`,
subpath `helpers` resolves to `/pkg/lib/helpers.js` and subpath
`missing` fails with the subpath-not-exported error. -/
theorem exports_map_subpath_resolution_witness :
    loadModule envC6 2 "/pkg" (some "helpers") true stEmpty
      = (.ok (.prim (.str (pathResolve (pathJoin "/pkg" "./lib/helpers.js")))), stEmpty) ∧
    (pathResolve (pathJoin "/pkg" "./lib/helpers.js") == "/pkg/lib/helpers.js") = true ∧
    loadModule envC6 2 "/pkg" (some "missing") true stEmpty
      = (.error .cannotImportSubpath, stEmpty) :=
  ⟨(exports_map_subpath_resolution envC6 1 "/pkg" "helpers" stEmpty
      [("exports", exC6)] exC6 rfl rfl rfl rfl rfl rfl rfl).2
      (.str "./lib/helpers.js") "./lib/helpers.js" rfl rfl rfl,
   rfl,
   (exports_map_subpath_resolution envC6 1 "/pkg" "missing" stEmpty
      [("exports", exC6)] exC6 rfl rfl rfl rfl rfl rfl rfl).1 rfl⟩

/-- Counterexample to C7 as stated: loading the same `.json` path
twice in one session returns two distinct freshly parsed instances
(addresses 0 and 1), and the session cache holds no entry for the path
after the first load — the cache is never populated for JSON
targets. -/
theorem json_cache_claim_counterexample :
    (loadModule envC7 1 "/d/c.json" none false stEmpty).1 = .ok (.ref 0) ∧
    ((loadModule envC7 1 "/d/c.json" none false stEmpty).2).moduleCache = [] ∧
    (loadModule envC7 1 "/d/c.json" none false
      ((loadModule envC7 1 "/d/c.json" none false stEmpty).2)).1 = .ok (.ref 1) :=
  ⟨rfl, rfl, rfl⟩

/-- C7 (amended).  Loading a `.json` target parses the file content
and returns the parsed value as a fresh instance each time; the
session cache and the loading set are not touched, so repeated loads
of the same path re-parse and return distinct instances. -/
theorem json_load_parses_fresh_uncached
    (env : Env) (n : Nat) (p : String) (sub : Option String) (st : LoaderState) (v : JValue)
    (hjson : strEndsWith p ".json" = true)
    (hfs : env.fs p = some (.file (.json v))) :
    loadModule env (n + 1) p sub false st = (.ok (jsonAlloc v st).1, (jsonAlloc v st).2) ∧
    ((jsonAlloc v st).2).moduleCache = st.moduleCache ∧
    ((jsonAlloc v st).2).loadingModules = st.loadingModules := by
  refine ⟨?_, ?_, ?_⟩
  · simp [loadModule, step, stepAux, hjson, existsF, hfs]
  · cases v <;> rfl
  · cases v <;> rfl

/-- Witness for C7: the first load of `/d/c.json` in an empty session
returns a fresh reference (address 0) holding the parsed document,
with the cache still empty. -/
theorem json_load_parses_fresh_uncached_witness :
    loadModule envC7 1 "/d/c.json" none false stEmpty
      = (.ok (.ref 0), ⟨[.obj [("a", .num 1)]], [], [], []⟩) :=
  (json_load_parses_fresh_uncached envC7 0 "/d/c.json" none stEmpty
    (.obj [("a", .num 1)]) rfl rfl).1

/-- C8.  Evaluation at the failing input: a resolve-only require of
the bare specifier `pkg` — a package directory whose manifest has a
`main` field — does not return a path with the session untouched;
the entry-file recursion drops the resolve-only flag, so the entry
module is read, compiled, executed (its exports object appears on the
heap with the property its body assigned), inserted into the session
cache and the touched-source-files set, and its exports reference is
returned. -/
theorem resolve_mode_main_entry_loads_and_caches :
    resolveBareMain.1 = .ok (.ref 0) ∧
    resolveBareMain.2.heap = [.obj [("hi", .num 1)]] ∧
    resolveBareMain.2.moduleCache.map Prod.snd = [.ref 0] ∧
    (resolveBareMain.2.moduleCache.map Prod.fst == ["/app/node_modules/pkg/x.js"]) = true ∧
    (resolveBareMain.2.sourceFiles == ["/app/node_modules/pkg/x.js"]) = true ∧
    resolveBareMain.2.loadingModules = [] ∧
    stEmpty.moduleCache = [] :=
  ⟨rfl, rfl, rfl, rfl, rfl, rfl, rfl⟩

/-- C9.  An assignment whose target identifier is bound in the program
scope, not shadowed by any enclosing inner scope, and exported, is
rewritten into a mirrored write onto the shared exports-namespace
object wrapping the original assignment; an assignment whose target is
shadowed by an inner binding is left as a plain assignment; and a
function expression extends the shadow set with exactly its parameters
and hoisted declarations, which is what makes shadowing inner bindings
suppress the mirror. -/
theorem assignment_mirroring_scope_rules
    (pm : List (String × String)) (pd sh : List String) (x ex : String)
    (r : JExpr) (ps : List String) (body : List JStmt) :
    (sh.contains x = false → pd.contains x = true → assocGet pm x = some ex →
       rewriteExpr pm pd sh (.assign x r)
         = .mirrorAssign ex x (rewriteExpr pm pd sh r)) ∧
    (sh.contains x = true →
       rewriteExpr pm pd sh (.assign x r) = .assign x (rewriteExpr pm pd sh r)) ∧
    (rewriteExpr pm pd sh (.fnExpr ps body)
       = .fnExpr ps (rewriteStmts pm pd (sh ++ ps ++ declsOf body) body)) := by
  refine ⟨?_, ?_, ?_⟩
  · intro h1 h2 h3
    have hm1 : x ∉ sh := by simpa using h1
    have hm2 : x ∈ pd := by simpa using h2
    simp [rewriteExpr, hm1, hm2, h3]
  · intro h1
    have hm : x ∈ sh := by simpa using h1
    simp [rewriteExpr, hm]
  · simp [rewriteExpr]

/-- Witness for C9: with `counter` exported and declared at top level,
the top-level assignment is mirrored, while the same assignment inside
a function whose parameter shadows `counter` is not. -/
theorem assignment_mirroring_scope_rules_witness :
    rewriteExpr [("counter", "counter")] ["counter"] [] (.assign "counter" (.lit 1))
      = .mirrorAssign "counter" "counter" (.lit 1) ∧
    rewriteExpr [("counter", "counter")] ["counter"] ["counter"] (.assign "counter" (.lit 2))
      = .assign "counter" (.lit 2) :=
  ⟨(assignment_mirroring_scope_rules [("counter", "counter")] ["counter"] []
      "counter" "counter" (.lit 1) [] []).1 rfl rfl rfl,
   (assignment_mirroring_scope_rules [("counter", "counter")] ["counter"] ["counter"]
      "counter" "counter" (.lit 2) [] []).2.1 rfl⟩

/-- C10.  Requiring `module` or `node:module` returns the loader's own
mocked `Module` class with the session state unchanged, for every
environment — in particular for environments whose internal-module
allow-list contains `module` and although `node:module` carries the
`node:` prefix, since this interception is tested first; the mocked
class's instantiation allocates a fresh, empty exports object, and its
`createRequire` yields the mocked require bound to the file's
directory in loading mode. -/
theorem require_module_returns_mocked_class
    (env : Env) (n : Nat) (cur : String) (st : LoaderState) (f : String) :
    mockedRequire env (n + 1) cur false "module" st = (.ok .mockedModuleClass, st) ∧
    mockedRequire env (n + 1) cur false "node:module" st = (.ok .mockedModuleClass, st) ∧
    (newMockedModule st).2.heap = st.heap ++ [JValue.obj []] ∧
    (newMockedModule st).1 = st.heap.length ∧
    MockedModule.createRequire f = { dir := pathDirname f, resolveOnly := false } :=
  ⟨rfl, rfl, rfl, rfl, rfl⟩

end JsModuleLoader
